import Mathlib

/-!
Verification of the workout-tracker core: a shallow embedding of the
progress-analytics engine (src/utils/analytics.ts), the session execution
engine (WorkoutExecutor) and the countdown timer's completion handler,
together with proofs settling the specification claims about them.

Modelling conventions:
* JS numbers carrying weights, reps, durations and metric values are
  modelled as exact rationals.
* Dates are modelled at calendar-day granularity as integers (the number
  of the midnight-normalized day); the code always normalizes with
  setHours(0,0,0,0) before comparing, so day numbers are faithful.
* The impure read of the clock (new Date() for "today") is modelled by an
  explicit parameter.
* JS Array.prototype.sort is a stable comparison sort; it is modelled by
  List.insertionSort, which is stable and sorted for the same comparator.
-/

namespace WorkoutTracker

/-- Catalog entry (types/workout.ts ExerciseType); only the fields read by
the analytics code are carried. -/
structure ExerciseType where
  id : String
  name : String
deriving DecidableEq

/-- A performed set (types/workout.ts Set).  actualReps / actualWeight are
optional until completion, matching the TS optional fields. -/
structure Set where
  id : String
  targetReps : ℚ
  actualReps : Option ℚ
  targetWeight : ℚ
  actualWeight : Option ℚ
  restTime : ℚ
  completed : Bool
deriving DecidableEq

/-- An exercise inside a workout (types/workout.ts Exercise). -/
structure Exercise where
  id : String
  exerciseType : String
  sets : List Set
deriving DecidableEq

/-- The aggregate root (types/workout.ts Workout); date is a calendar-day
number, duration is minutes. -/
structure Workout where
  id : String
  date : ℤ
  duration : ℚ
  exercises : List Exercise
deriving DecidableEq

/-- JS truthiness fallback: `a || b` yields `b` when `a` is undefined or 0.
This is the exact semantics of the source's `set.actualWeight ||
set.targetWeight` (0 is falsy in JS), as opposed to the nullish `??`. -/
def jsOr (a : Option ℚ) (b : ℚ) : ℚ :=
  match a with
  | some x => if x = 0 then b else x
  | none => b

/-- Nullish coalescing `a ?? b`: yields `b` only when `a` is absent. -/
def nullish (a : Option ℚ) (b : ℚ) : ℚ := a.getD b

/-- The weight the analytics code charges a set with:
`set.actualWeight || set.targetWeight`. -/
def setWeight (s : Set) : ℚ := jsOr s.actualWeight s.targetWeight

/-- The rep count the analytics code charges a set with:
`set.actualReps || set.targetReps`. -/
def setReps (s : Set) : ℚ := jsOr s.actualReps s.targetReps

/-- Per-exercise volume: the inner reduce of the volume computation. -/
def exerciseVolume (e : Exercise) : ℚ :=
  (e.sets.map (fun s => setWeight s * setReps s)).sum

/-- Per-workout volume, as computed both in calculateDashboardStats and in
calculateWeeklyProgress. -/
def workoutVolume (w : Workout) : ℚ :=
  (w.exercises.map exerciseVolume).sum

/-- Comparator of the dashboard's in-place sort
`workouts.sort((a, b) => b.date.getTime() - a.date.getTime())`:
a before b exactly when b.date ≤ a.date (most recent first). -/
def byDateDesc (a b : Workout) : Prop := b.date ≤ a.date

instance : DecidableRel byDateDesc := fun a b =>
  inferInstanceAs (Decidable (b.date ≤ a.date))

instance : IsTotal Workout byDateDesc := ⟨fun a b => le_total b.date a.date⟩

instance : IsTrans Workout byDateDesc :=
  ⟨fun _ _ _ h1 h2 => le_trans h2 h1⟩

/-- The sorted array produced (and, the sort being in place, left in the
caller's variable) by the dashboard's first statement. -/
def sortByDateDesc (ws : List Workout) : List Workout :=
  List.insertionSort byDateDesc ws

/-- The while-loop of calculateWorkoutStreak: walk backward one day at a
time while the day is present, counting.  The loop visits pairwise
distinct days, all members of `dates`, so it runs at most `dates.length`
iterations; that bound is supplied as fuel (countBack_saturate below
shows the bound is never the reason the walk stops). -/
def countBack (dates : List ℤ) : ℤ → ℕ → ℕ
  | _, 0 => 0
  | d, fuel + 1 => if d ∈ dates then countBack dates (d - 1) fuel + 1 else 0

/-- calculateWorkoutStreak (analytics.ts): expects the most-recent-first
sorted list, reads the most recent date from its head, returns 0 on a gap
of more than one day, otherwise counts consecutive present days starting
from today (or yesterday when today is absent). -/
def calculateWorkoutStreak (sortedWorkouts : List Workout) (today : ℤ) : ℕ :=
  match sortedWorkouts with
  | [] => 0
  | mostRecentWorkout :: _ =>
    let mostRecentDate := mostRecentWorkout.date
    let daysSinceLastWorkout := today - mostRecentDate
    if 1 < daysSinceLastWorkout then 0
    else
      let workoutDates := sortedWorkouts.map (fun w => w.date)
      let currentDate := if today ∈ workoutDates then today else today - 1
      countBack workoutDates currentDate sortedWorkouts.length

/-- Kind tag of a personal record. -/
inductive RecordType where
  | maxWeight
  | maxReps
  | maxVolume
deriving DecidableEq

/-- Derived personal-record row (analytics.ts PersonalRecord). -/
structure PersonalRecord where
  exerciseId : String
  exerciseName : String
  type : RecordType
  value : ℚ
  date : ℤ
  workoutId : String
deriving DecidableEq

/-- Per-exercise-type record slots, in the object-literal order
maxWeight, maxReps, maxVolume used by the source. -/
structure RecordTriple where
  maxWeight : Option PersonalRecord
  maxReps : Option PersonalRecord
  maxVolume : Option PersonalRecord
deriving DecidableEq

/-- Lookup in the insertion-ordered map modelling the JS
Map<string, RecordTriple>. -/
def lookupAssoc (m : List (String × RecordTriple)) (k : String) :
    Option RecordTriple :=
  match m.find? (fun p => p.1 = k) with
  | some p => some p.2
  | none => none

/-- Map.set: overwrite the existing entry in place, else append (JS Map
keeps first-insertion key order). -/
def setAssoc (m : List (String × RecordTriple)) (k : String)
    (v : RecordTriple) : List (String × RecordTriple) :=
  match m with
  | [] => [(k, v)]
  | p :: rest =>
    if p.1 = k then (k, v) :: rest else p :: setAssoc rest k v

/-- The candidate value a set contributes for a record kind. -/
def candValue (k : RecordType) (s : Set) : ℚ :=
  match k with
  | .maxWeight => setWeight s
  | .maxReps => setReps s
  | .maxVolume => setWeight s * setReps s

/-- The record row built when a set beats (or first fills) a slot. -/
def mkRecord (tid name : String) (k : RecordType) (v : ℚ) (w : Workout) :
    PersonalRecord :=
  { exerciseId := tid, exerciseName := name, type := k, value := v,
    date := w.date, workoutId := w.id }

/-- One slot update: `if (!slot || value > slot.value) slot = fresh`. -/
def updateBest (slot : Option PersonalRecord) (c : PersonalRecord) :
    Option PersonalRecord :=
  match slot with
  | none => some c
  | some b => if b.value < c.value then some c else some b

/-- Processing of a single set inside calculatePersonalRecords: the three
strictly-greater checks, threaded in source order. -/
def applySet (tid name : String) (w : Workout) (t : RecordTriple) (s : Set) :
    RecordTriple :=
  let t1 : RecordTriple :=
    { t with maxWeight :=
        updateBest t.maxWeight (mkRecord tid name .maxWeight (setWeight s) w) }
  let t2 : RecordTriple :=
    { t1 with maxReps :=
        updateBest t1.maxReps (mkRecord tid name .maxReps (setReps s) w) }
  { t2 with maxVolume :=
      updateBest t2.maxVolume (mkRecord tid name .maxVolume (setWeight s * setReps s) w) }

/-- Processing of one exercise: find its catalog entry, fetch the triple
from the map, fold the sets into it, store it back.  Exercises whose type
is not in the catalog (or whose key is somehow missing) are skipped, as in
the source's early returns. -/
def applyExercise (ets : List ExerciseType) (w : Workout)
    (m : List (String × RecordTriple)) (e : Exercise) :
    List (String × RecordTriple) :=
  match ets.find? (fun et => et.id = e.exerciseType) with
  | none => m
  | some et =>
    match lookupAssoc m e.exerciseType with
    | none => m
    | some t =>
      setAssoc m e.exerciseType (e.sets.foldl (applySet e.exerciseType et.name w) t)

/-- The records map after initialization and the full scan, in the order
the workouts list presents them. -/
def buildRecordsMap (workouts : List Workout) (ets : List ExerciseType) :
    List (String × RecordTriple) :=
  let init := ets.foldl
    (fun m et => setAssoc m et.id ⟨none, none, none⟩) []
  workouts.foldl (fun m w => w.exercises.foldl (applyExercise ets w) m) init

/-- Flattening `records.forEach(... Object.values ...)`: map order, then
slot order maxWeight, maxReps, maxVolume, dropping empty slots. -/
def flattenRecords (m : List (String × RecordTriple)) : List PersonalRecord :=
  (m.map (fun p => [p.2.maxWeight, p.2.maxReps, p.2.maxVolume].filterMap id)).flatten

/-- Comparator of `allRecords.sort((a, b) => b.value - a.value)`. -/
def byValueDesc (a b : PersonalRecord) : Prop := b.value ≤ a.value

instance : DecidableRel byValueDesc := fun a b =>
  inferInstanceAs (Decidable (b.value ≤ a.value))

instance : IsTotal PersonalRecord byValueDesc := ⟨fun a b => le_total b.value a.value⟩

instance : IsTrans PersonalRecord byValueDesc :=
  ⟨fun _ _ _ h1 h2 => le_trans h2 h1⟩

/-- calculatePersonalRecords (analytics.ts): scan in the given order, then
sort all slots by value descending and keep the top 10. -/
def calculatePersonalRecords (workouts : List Workout)
    (ets : List ExerciseType) : List PersonalRecord :=
  (List.insertionSort byValueDesc (flattenRecords (buildRecordsMap workouts ets))).take 10

/-- getWeekStart (analytics.ts): move back to the Sunday of the date's
week at midnight.  For day number d, JS getDay() is (d + 4) % 7 (day 0,
1970-01-01, was a Thursday), and setDate(getDate() - day) subtracts that
weekday. -/
def getWeekStart (d : ℤ) : ℤ := d - (d + 4) % 7

/-- Accumulator entry of the weekly map. -/
structure WeekData where
  totalVolume : ℚ
  workoutCount : ℕ
  totalDuration : ℚ
  date : ℤ
deriving DecidableEq

/-- Emitted weekly row (analytics.ts WeeklyStats).  The week label is
carried as the week-start day number; the source renders it as a
"Mon D - Mon D" string, which is presentation only. -/
structure WeeklyStats where
  week : ℤ
  totalVolume : ℚ
  workoutCount : ℕ
  averageDuration : ℚ
  date : ℤ
deriving DecidableEq

/-- Lookup in the weekly map (keyed by week-start day). -/
def lookupWeek (m : List (ℤ × WeekData)) (k : ℤ) : Option WeekData :=
  match m.find? (fun p => p.1 = k) with
  | some p => some p.2
  | none => none

/-- Map.set for the weekly map. -/
def setWeek (m : List (ℤ × WeekData)) (k : ℤ) (v : WeekData) :
    List (ℤ × WeekData) :=
  match m with
  | [] => [(k, v)]
  | p :: rest =>
    if p.1 = k then (k, v) :: rest else p :: setWeek rest k v

/-- Folding one workout into the weekly map: create the bucket on first
sight, then add count, duration and volume. -/
def addToWeek (m : List (ℤ × WeekData)) (w : Workout) :
    List (ℤ × WeekData) :=
  let weekKey := getWeekStart w.date
  let m1 := match lookupWeek m weekKey with
    | some _ => m
    | none => setWeek m weekKey ⟨0, 0, 0, weekKey⟩
  match lookupWeek m1 weekKey with
  | none => m1
  | some d =>
    setWeek m1 weekKey
      { d with workoutCount := d.workoutCount + 1,
               totalDuration := d.totalDuration + w.duration,
               totalVolume := d.totalVolume + workoutVolume w }

/-- Comparator of `weeklyStats.sort((a, b) => a.date - b.date)`. -/
def byWeekAsc (a b : WeeklyStats) : Prop := a.date ≤ b.date

instance : DecidableRel byWeekAsc := fun a b =>
  inferInstanceAs (Decidable (a.date ≤ b.date))

instance : IsTotal WeeklyStats byWeekAsc := ⟨fun a b => le_total a.date b.date⟩

instance : IsTrans WeeklyStats byWeekAsc :=
  ⟨fun _ _ _ h1 h2 => le_trans h1 h2⟩

/-- calculateWeeklyProgress (analytics.ts): bucket by week start, convert,
sort oldest to newest. -/
def calculateWeeklyProgress (workouts : List Workout) : List WeeklyStats :=
  let weeklyData := workouts.foldl addToWeek []
  let weeklyStats := weeklyData.map (fun p =>
    { week := p.2.date, totalVolume := p.2.totalVolume,
      workoutCount := p.2.workoutCount,
      averageDuration :=
        if 0 < p.2.workoutCount then p.2.totalDuration / p.2.workoutCount else 0,
      date := p.2.date : WeeklyStats })
  List.insertionSort byWeekAsc weeklyStats

/-- The dashboard aggregate (analytics.ts DashboardStats). -/
structure DashboardStats where
  totalWorkouts : ℕ
  totalVolume : ℚ
  averageWorkoutDuration : ℚ
  currentStreak : ℕ
  personalRecords : List PersonalRecord
  recentWorkouts : List Workout
  weeklyProgress : List WeeklyStats
deriving DecidableEq

/-- calculateDashboardStats (analytics.ts).  The source's first statement
`workouts.sort(...)` sorts the caller's array IN PLACE, so every later
read of `workouts` sees the sorted array; the second component of the
result is the contents of the caller's array after the call returns. -/
def calculateDashboardStats (workouts : List Workout)
    (ets : List ExerciseType) (today : ℤ) :
    DashboardStats × List Workout :=
  let sortedWorkouts := sortByDateDesc workouts
  let totalWorkouts := sortedWorkouts.length
  let totalDuration := (sortedWorkouts.map (fun w => w.duration)).sum
  let averageWorkoutDuration :=
    if 0 < totalWorkouts then totalDuration / totalWorkouts else 0
  let totalVolume := (sortedWorkouts.map workoutVolume).sum
  let currentStreak := calculateWorkoutStreak sortedWorkouts today
  let recentWorkouts := sortedWorkouts.take 5
  let personalRecords := calculatePersonalRecords sortedWorkouts ets
  let weeklyProgress := calculateWeeklyProgress sortedWorkouts
  (⟨totalWorkouts, totalVolume, averageWorkoutDuration, currentStreak,
    personalRecords, recentWorkouts, weeklyProgress⟩, sortedWorkouts)

/-- calculateOneRepMax (analytics.ts): Brzycki formula, rounded to the
nearest integer (Math.round x = ⌊x + 1/2⌋, as is Mathlib's round). -/
def calculateOneRepMax (weight reps : ℚ) : ℚ :=
  if reps = 1 then weight
  else ((round (weight / (1.0278 - 0.0278 * reps)) : ℤ) : ℚ)

/-- Metric selector of findPlateaus. -/
inductive Metric where
  | totalVolume
  | workoutCount
  | averageDuration
deriving DecidableEq

/-- Field read `week[metric]`. -/
def metricValue (s : WeeklyStats) : Metric → ℚ
  | .totalVolume => s.totalVolume
  | .workoutCount => (s.workoutCount : ℚ)
  | .averageDuration => s.averageDuration

/-- findPlateaus (analytics.ts).  The source compares
sqrt(variance)/average < 0.05 when average > 0 (and takes the coefficient
of variation to be 0 otherwise); over exact numbers with average > 0 this
inequality is equivalent to variance < (0.05 * average)^2, which is the
square-root-free form used here (the equivalence with the literal
square-root formula is proved in the C6 theorem). -/
def findPlateaus (weeklyStats : List WeeklyStats) (metric : Metric) : Bool :=
  if weeklyStats.length < 4 then false
  else
    let recentWeeks := weeklyStats.drop (weeklyStats.length - 4)
    let values := recentWeeks.map (fun w => metricValue w metric)
    let average := values.sum / (values.length : ℚ)
    let variance :=
      (values.map (fun v => (v - average) ^ 2)).sum / (values.length : ℚ)
    if 0 < average then
      if variance < (0.05 * average) ^ 2 then true else false
    else true

/-! ### Session execution engine (WorkoutExecutor) -/

/-- The transient session state (WorkoutExecutor's WorkoutSession), plus
the component state it is managed with: the active timer tag, the rest
duration fed to it, and whether completeWorkout has fired (in the source:
the snapshot was removed and onComplete called). -/
structure WorkoutSession where
  currentExerciseIndex : ℕ
  currentSetIndex : ℕ
  isPaused : Bool
  completedSets : List Set
deriving DecidableEq

/-- Executor component state around the session: currentTimer (some () is
the rest timer), restTime, and the completion signal. -/
structure ExecutorState where
  session : WorkoutSession
  currentTimer : Option Unit
  restTime : ℚ
  workoutCompleted : Bool
deriving DecidableEq

/-- initializeSession: cursor (0, 0), nothing completed. -/
def initSession : ExecutorState :=
  { session := ⟨0, 0, false, []⟩, currentTimer := none, restTime := 0,
    workoutCompleted := false }

/-- getCurrentExercise: `workout.exercises[currentExerciseIndex] || null`. -/
def getCurrentExercise (w : Workout) (s : WorkoutSession) : Option Exercise :=
  w.exercises[s.currentExerciseIndex]?

/-- getCurrentSet: `exercise.sets[currentSetIndex] || null`. -/
def getCurrentSet (w : Workout) (s : WorkoutSession) : Option Set :=
  match getCurrentExercise w s with
  | none => none
  | some e => e.sets[s.currentSetIndex]?

/-- completeWorkout: persists, clears the snapshot and signals completion;
the cursor is left where it is. -/
def completeWorkout (st : ExecutorState) : ExecutorState :=
  { st with workoutCompleted := true }

/-- moveToNextExercise: advance to the next exercise's first set, or
complete the workout after the last exercise.  The JS comparison
`currentExerciseIndex < workout.exercises.length - 1` is taken over ℤ. -/
def moveToNextExercise (w : Workout) (st : ExecutorState) : ExecutorState :=
  if (st.session.currentExerciseIndex : ℤ) < (w.exercises.length : ℤ) - 1 then
    { st with
        session := { st.session with
          currentExerciseIndex := st.session.currentExerciseIndex + 1,
          currentSetIndex := 0 },
        currentTimer := none }
  else
    completeWorkout st

/-- completeSet (WorkoutExecutor): no validation of the arguments; records
the completed set (replacing any prior completion of the same set id),
then either starts the rest timer or advances to the next exercise. -/
def completeSet (w : Workout) (st : ExecutorState)
    (actualReps actualWeight : ℚ) : ExecutorState :=
  match getCurrentSet w st.session with
  | none => st
  | some currentSet =>
    let completedSet : Set :=
      { currentSet with actualReps := some actualReps,
                        actualWeight := some actualWeight, completed := true }
    let updatedCompletedSets :=
      (st.session.completedSets.filter (fun cs => cs.id ≠ currentSet.id))
        ++ [completedSet]
    let st1 :=
      { st with session := { st.session with completedSets := updatedCompletedSets } }
    match getCurrentExercise w st1.session with
    | some ex =>
      if (st1.session.currentSetIndex : ℤ) < (ex.sets.length : ℤ) - 1 then
        { st1 with restTime := currentSet.restTime, currentTimer := some () }
      else
        moveToNextExercise w st1
    | none => st1

/-- moveToNextSet: advance within the exercise, else to the next exercise;
clears the active timer on every non-early-return path. -/
def moveToNextSet (w : Workout) (st : ExecutorState) : ExecutorState :=
  match getCurrentExercise w st.session with
  | none => st
  | some ex =>
    let st1 :=
      if (st.session.currentSetIndex : ℤ) < (ex.sets.length : ℤ) - 1 then
        { st with session := { st.session with
            currentSetIndex := st.session.currentSetIndex + 1 } }
      else
        moveToNextExercise w st
    { st1 with currentTimer := none }

/-- handleRestComplete: clear the timer, then moveToNextSet. -/
def handleRestComplete (w : Workout) (st : ExecutorState) : ExecutorState :=
  moveToNextSet w { st with currentTimer := none }

/-- skipRest: identical to handleRestComplete in the source. -/
def skipRest (w : Workout) (st : ExecutorState) : ExecutorState :=
  moveToNextSet w { st with currentTimer := none }

/-- pauseWorkout: set the paused flags only. -/
def pauseWorkout (st : ExecutorState) : ExecutorState :=
  { st with session := { st.session with isPaused := true } }

/-- resumeWorkout: clear the paused flags only. -/
def resumeWorkout (st : ExecutorState) : ExecutorState :=
  { st with session := { st.session with isPaused := false } }

/-- loadWorkout's restore path: the parsed snapshot (written by
saveProgress from a live session) becomes the session verbatim — the only
defensiveness in the source is the JSON.parse try/catch — while the
component-level state starts fresh. -/
def restoreSession (st : ExecutorState) : ExecutorState :=
  { session := st.session, currentTimer := none, restTime := 0,
    workoutCompleted := false }

/-- The session states reachable for a fixed workout: a fresh start, every
engine operation, and a restart from a snapshot written during a reachable
state. -/
inductive Reachable (w : Workout) : ExecutorState → Prop where
  | init : Reachable w initSession
  | completeSetStep {st} (actualReps actualWeight : ℚ) :
      Reachable w st → Reachable w (completeSet w st actualReps actualWeight)
  | restDone {st} : Reachable w st → Reachable w (handleRestComplete w st)
  | skipRestStep {st} : Reachable w st → Reachable w (skipRest w st)
  | pauseStep {st} : Reachable w st → Reachable w (pauseWorkout st)
  | resumeStep {st} : Reachable w st → Reachable w (resumeWorkout st)
  | restore {st} : Reachable w st → Reachable w (restoreSession st)

/-- The cursor indexes an existing Exercise/Set pair. -/
def cursorValid (w : Workout) (s : WorkoutSession) : Bool :=
  match w.exercises[s.currentExerciseIndex]? with
  | some ex => s.currentSetIndex < ex.sets.length
  | none => false

/-- A generous reading of the claim's terminal "past last set" position:
the exercise index is past the exercises, or sits on the last exercise
with the set index at or past its sets. -/
def cursorTerminal (w : Workout) (s : WorkoutSession) : Bool :=
  (w.exercises.length ≤ s.currentExerciseIndex) ||
    (s.currentExerciseIndex + 1 = w.exercises.length &&
      match w.exercises[s.currentExerciseIndex]? with
      | some ex => ex.sets.length ≤ s.currentSetIndex
      | none => false)

/-! ### SetTracker (UI validation layer) -/

/-- SetTracker.handleComplete: the guard
`if (actualReps <= 0 || actualWeight < 0) return;` runs before
onComplete — which the executor wires to completeSet.  The Bool reports
whether the completion was actually performed. -/
def handleComplete (w : Workout) (st : ExecutorState)
    (actualReps actualWeight : ℚ) : ExecutorState × Bool :=
  if actualReps ≤ 0 ∨ actualWeight < 0 then (st, false)
  else (completeSet w st actualReps actualWeight, true)

/-! ### Countdown timer completion (Timer component) -/

/-- The environment the timer's completion handler runs in: which
best-effort side effects are available and which of them throw. -/
structure CompletionEnv where
  soundThrows : Bool
  notifAvailable : Bool
  notifGranted : Bool
  notifThrows : Bool
  vibrateSupported : Bool
  vibrateThrows : Bool
deriving DecidableEq

/-- A side-effect attempt: ok, or a thrown error. -/
def attempt (throws : Bool) : Except Unit Unit :=
  if throws then Except.error () else Except.ok ()

/-- What handleTimerComplete did. -/
structure CompletionOutcome where
  soundPlayed : Bool
  notificationShown : Bool
  callbackInvoked : Bool
deriving DecidableEq

/-- showNotification (Timer): guarded by availability and permission; the
Notification construction is inside a try/catch whose handler only logs,
so a throw is swallowed.  Returns whether a notification was shown; an
escaping error would surface as Except.error. -/
def showNotification (env : CompletionEnv) : Except Unit Bool :=
  if env.notifAvailable && env.notifGranted then
    match attempt env.notifThrows with
    | Except.ok _ => Except.ok true
    | Except.error _ => Except.ok false
  else Except.ok false

/-- handleTimerComplete (Timer): try/catch around the completion sound,
then showNotification, then a guarded try/catch vibration, then the
completion callback.  Any error not caught by those handlers would escape
as Except.error. -/
def handleTimerComplete (env : CompletionEnv) : Except Unit CompletionOutcome := do
  let soundPlayed :=
    match attempt env.soundThrows with
    | Except.ok _ => true
    | Except.error _ => false
  let notificationShown ← showNotification env
  if env.vibrateSupported then
    match attempt env.vibrateThrows with
    | Except.ok _ => pure ()
    | Except.error _ => pure ()
  Except.ok { soundPlayed := soundPlayed,
              notificationShown := notificationShown,
              callbackInvoked := true }

/-! ### Spec-side definitions (transcribed from the claims' wording, for
comparison against the code-derived definitions above) -/

/-- The total-volume formula exactly as claim C4 words it: target values
substituted only when the corresponding actual value is absent (nullish
coalescing). -/
def totalVolumeNullish (ws : List Workout) : ℚ :=
  (ws.map (fun w =>
    (w.exercises.map (fun e =>
      (e.sets.map (fun s =>
        nullish s.actualWeight s.targetWeight *
          nullish s.actualReps s.targetReps)).sum)).sum)).sum

/-- The total-volume formula with the source's JS-truthiness fallback:
target values substituted when the actual value is absent or 0. -/
def totalVolumeFalsy (ws : List Workout) : ℚ :=
  (ws.map (fun w =>
    (w.exercises.map (fun e =>
      (e.sets.map (fun s =>
        jsOr s.actualWeight s.targetWeight *
          jsOr s.actualReps s.targetReps)).sum)).sum)).sum

/-- The record slot of a given kind inside a triple. -/
def tripleField (k : RecordType) (t : RecordTriple) : Option PersonalRecord :=
  match k with
  | .maxWeight => t.maxWeight
  | .maxReps => t.maxReps
  | .maxVolume => t.maxVolume

/-- The record the scan has computed for a given exercise type and kind. -/
def slotOf (m : List (String × RecordTriple)) (tid : String)
    (k : RecordType) : Option PersonalRecord :=
  match lookupAssoc m tid with
  | none => none
  | some t => tripleField k t

/-- All record candidates of one exercise type and kind, in the order the
scan visits them (the order of the given workouts list): every set of
every exercise of that type contributes its value together with the
workout's date and id, provided the type exists in the catalog. -/
def recordCandidates (ws : List Workout) (ets : List ExerciseType)
    (tid : String) (k : RecordType) : List PersonalRecord :=
  match ets.find? (fun et => et.id = tid) with
  | none => []
  | some et =>
    (ws.map (fun w =>
      (w.exercises.map (fun e =>
        if e.exerciseType = tid then
          e.sets.map (fun s => mkRecord tid et.name k (candValue k s) w)
        else [])).flatten)).flatten

/-- The claim's per-slot specification: the maximum value over all
candidates, ties resolved to the first candidate in scan order. -/
def firstMax (l : List PersonalRecord) : Option PersonalRecord :=
  l.find? (fun r => l.all (fun r2 => r2.value ≤ r.value))

/-- The scan's slot fold: updateBest applied left to right. -/
def foldBest (acc : Option PersonalRecord) (l : List PersonalRecord) :
    Option PersonalRecord :=
  l.foldl updateBest acc

/-- The effect of scanning one workout's exercises on the triple of a
fixed exercise type: every exercise of that type folds its sets in. -/
def tripleScanExercises (tid name : String) (w : Workout) (t : RecordTriple)
    (exs : List Exercise) : RecordTriple :=
  exs.foldl
    (fun t e =>
      if e.exerciseType = tid then e.sets.foldl (applySet tid name w) t else t)
    t

/-- The effect of the whole scan on the triple of a fixed exercise
type. -/
def tripleScanWorkouts (tid name : String) (t : RecordTriple)
    (ws : List Workout) : RecordTriple :=
  ws.foldl (fun t w => tripleScanExercises tid name w t w.exercises) t

/-! ### Concrete instances used by example and counterexample theorems -/

/-- A workout on a given day with no exercises (streak and sorting
examples only depend on dates). -/
def dayW (d : ℤ) : Workout := { id := "w", date := d, duration := 0, exercises := [] }

/-- A set whose recorded actual weight is 0 (the performer failed the
weight but logged it): target 100 kg, actual 0 kg, 10 actual reps. -/
def zeroActualSet : Set :=
  { id := "s1", targetReps := 10, actualReps := some 10, targetWeight := 100,
    actualWeight := some 0, restTime := 60, completed := true }

/-- Exercise wrapping zeroActualSet. -/
def zeroActualExercise : Exercise :=
  { id := "e1", exerciseType := "et1", sets := [zeroActualSet] }

/-- Workout wrapping zeroActualExercise. -/
def zeroActualWorkout : Workout :=
  { id := "w1", date := 10, duration := 30, exercises := [zeroActualExercise] }

/-- Earlier of the two sort-mutation example workouts. -/
def wEarlier : Workout := { id := "wA", date := 10, duration := 30, exercises := [] }

/-- Later of the two sort-mutation example workouts. -/
def wLater : Workout := { id := "wB", date := 20, duration := 30, exercises := [] }

/-- A plain target-only set (no actual values yet). -/
def plainSet (i : String) (reps weight : ℚ) : Set :=
  { id := i, targetReps := reps, actualReps := none, targetWeight := weight,
    actualWeight := none, restTime := 60, completed := false }

/-- A one-exercise, one-set workout: the minimal well-formed session
subject. -/
def wSimple : Workout :=
  { id := "ws", date := 0, duration := 0,
    exercises := [{ id := "e0", exerciseType := "t0", sets := [plainSet "s0" 10 16] }] }

/-- Three-exercise workout whose middle exercise has no sets: first and
last exercises have one set each. -/
def wGapExercises : Workout :=
  { id := "wg", date := 0, duration := 0,
    exercises :=
      [{ id := "g0", exerciseType := "t0", sets := [plainSet "gs0" 10 16] },
       { id := "g1", exerciseType := "t0", sets := [] },
       { id := "g2", exerciseType := "t0", sets := [plainSet "gs2" 10 16] }] }

/-- Catalog entry for the personal-record tie example. -/
def etSwing : ExerciseType := { id := "t1", name := "Swing" }

/-- Earlier workout of the tie pair: one set, 100 kg target, 5 target
reps. -/
def wTieEarlier : Workout :=
  { id := "tw1", date := 1, duration := 0,
    exercises := [{ id := "te1", exerciseType := "t1",
                    sets := [plainSet "ts1" 5 100] }] }

/-- Later workout of the tie pair: identical set values, later date. -/
def wTieLater : Workout :=
  { id := "tw2", date := 2, duration := 0,
    exercises := [{ id := "te2", exerciseType := "t1",
                    sets := [plainSet "ts2" 5 100] }] }

/-- A weekly row carrying a given total volume (plateau examples). -/
def mkWS (v : ℚ) : WeeklyStats :=
  { week := 0, totalVolume := v, workoutCount := 1, averageDuration := 0, date := 0 }

/-! ## Theorems -/

/-- C8: calculateOneRepMax returns the weight unchanged for reps = 1 and
otherwise the Brzycki quotient rounded to the nearest integer, the
formula applied verbatim for every rep count (including 0); in particular
(100, 1) gives 100, (80, 5) gives 90 and (0, 5) gives 0. -/
theorem claim_C8 :
    (∀ weight : ℚ, calculateOneRepMax weight 1 = weight) ∧
    (∀ weight reps : ℚ, reps ≠ 1 →
      calculateOneRepMax weight reps =
        ((round (weight / (1.0278 - 0.0278 * reps)) : ℤ) : ℚ)) ∧
    calculateOneRepMax 100 1 = 100 ∧
    calculateOneRepMax 80 5 = 90 ∧
    calculateOneRepMax 0 5 = 0 := by
  refine ⟨fun w => by simp [calculateOneRepMax],
    fun w r h => by simp [calculateOneRepMax, h],
    by norm_num [calculateOneRepMax],
    by norm_num [calculateOneRepMax, round_eq],
    by norm_num [calculateOneRepMax, round_eq]⟩

/-- Witness for C8 at weight 80, reps 5. -/
theorem claim_C8_witness :
    (5 : ℚ) ≠ 1 ∧
    calculateOneRepMax 80 5 =
      ((round ((80 : ℚ) / (1.0278 - 0.0278 * 5)) : ℤ) : ℚ) :=
  ⟨by norm_num, claim_C8.2.1 80 5 (by norm_num)⟩

/-- C9: whenever the countdown timer completes, the completion callback
is invoked and no sound/notification/vibration failure escapes to the
caller, for every combination of availability and thrown errors. -/
theorem claim_C9 :
    ∀ env : CompletionEnv, ∃ out : CompletionOutcome,
      handleTimerComplete env = Except.ok out ∧ out.callbackInvoked = true := by
  intro env
  rcases env with ⟨s, na, ng, nt, vs, vt⟩
  cases s <;> cases na <;> cases ng <;> cases nt <;> cases vs <;> cases vt <;>
    exact ⟨_, rfl, rfl⟩

/-- C10: calculateDashboardStats mutates its input: the first statement
sorts the caller's workouts array in place, so an oldest-first input is
left in most-recent-first order after the call, refuting the no-side-
effects claim (evaluated at a concrete two-workout input). -/
theorem claim_C10_code_bug :
    (calculateDashboardStats [wEarlier, wLater] [] 100).2 = [wLater, wEarlier] ∧
    [wLater, wEarlier] ≠ [wEarlier, wLater] := by
  exact ⟨by decide, by decide⟩

/-- C3 counterexample: the engine's completeSet itself performs no
validation: called with actualReps = 0 on a fresh session of the minimal
workout it records a completed set, so the session state is changed by
the call rather than the call being rejected. -/
theorem claim_C3_counterexample :
    (completeSet wSimple initSession 0 16).session.completedSets.length = 1 ∧
    initSession.session.completedSets.length = 0 := by
  exact ⟨by decide, rfl⟩

/-- C3 amended: the validation lives one layer up, in SetTracker's
handleComplete: a call with non-positive reps or negative weight returns
before invoking the engine's completeSet, leaving the state unchanged and
reporting no completion. -/
theorem claim_C3_amended (w : Workout) (st : ExecutorState)
    (actualReps actualWeight : ℚ)
    (h : actualReps ≤ 0 ∨ actualWeight < 0) :
    handleComplete w st actualReps actualWeight = (st, false) := by
  unfold handleComplete
  rw [if_pos h]

/-- Witness for the amended C3 at reps = 0, weight = 16. -/
theorem claim_C3_witness :
    ((0 : ℚ) ≤ 0 ∨ (16 : ℚ) < 0) ∧
    handleComplete wSimple initSession 0 16 = (initSession, false) :=
  ⟨Or.inl le_rfl, claim_C3_amended wSimple initSession 0 16 (Or.inl le_rfl)⟩

/-- C4 counterexample: at a workout whose only set has recorded actual
weight 0 (target 100) and actual reps 10, the claim's nullish formula
gives 0 while the code computes 1000: the source's JS-or substitutes the
target when the actual value is 0, not only when it is absent. -/
theorem claim_C4_counterexample :
    (calculateDashboardStats [zeroActualWorkout] [] 10).1.totalVolume = 1000 ∧
    totalVolumeNullish [zeroActualWorkout] = 0 ∧
    (1000 : ℚ) ≠ 0 := by
  refine ⟨?_, ?_, by norm_num⟩
  · norm_num [calculateDashboardStats, sortByDateDesc, workoutVolume,
      exerciseVolume, setWeight, setReps, jsOr, zeroActualWorkout,
      zeroActualExercise, zeroActualSet, List.insertionSort]
  · norm_num [totalVolumeNullish, nullish, zeroActualWorkout,
      zeroActualExercise, zeroActualSet]

/-- C4 amended: for every list of workouts the dashboard's total volume
equals the sum over every set of (actualWeight-or-target) ×
(actualReps-or-target), where the target substitutes when the actual
value is absent or 0 (JS truthiness), taken over the workouts in their
given order. -/
theorem claim_C4_amended (ws : List Workout) (ets : List ExerciseType)
    (today : ℤ) :
    (calculateDashboardStats ws ets today).1.totalVolume = totalVolumeFalsy ws := by
  have h1 : (calculateDashboardStats ws ets today).1.totalVolume
      = ((sortByDateDesc ws).map workoutVolume).sum := rfl
  have h2 : totalVolumeFalsy ws = (ws.map workoutVolume).sum := rfl
  rw [h1, h2]
  exact List.Perm.sum_eq
    (List.Perm.map workoutVolume (List.perm_insertionSort byDateDesc ws))

/-- Bridge between the code's square-root-free comparison and the literal
coefficient-of-variation formula: for any rationals, the plateau
condition computed by findPlateaus' final branch agrees with
(stdDev / mean, taken as 0 at mean 0) being below 0.05 over ℝ. -/
theorem plateau_branch_iff (avg variance : ℚ) :
    (if 0 < avg then
      (if variance < (0.05 * avg) ^ 2 then true else false)
     else true) = true ↔
      (if (avg : ℝ) = 0 then (0 : ℝ)
       else Real.sqrt (variance : ℝ) / (avg : ℝ)) < 0.05 := by
  rcases lt_trichotomy (0 : ℚ) avg with hpos | hzero | hneg
  · have hne : ((avg : ℝ)) ≠ 0 := by
      exact_mod_cast ne_of_gt hpos
    rw [if_pos hpos, if_neg hne]
    have hposR : (0 : ℝ) < (avg : ℝ) := by exact_mod_cast hpos
    have h05 : (0 : ℝ) < 0.05 * (avg : ℝ) := by positivity
    constructor
    · intro h
      have hlt : variance < (0.05 * avg) ^ 2 := by
        by_contra hcon
        simp [if_neg hcon] at h
      have hltR : (variance : ℝ) < (0.05 * (avg : ℝ)) ^ 2 := by
        have h := (Rat.cast_lt (K := ℝ)).mpr hlt
        push_cast at h
        exact h
      rw [div_lt_iff₀ hposR]
      exact (Real.sqrt_lt' h05).mpr hltR
    · intro h
      have hsq : Real.sqrt (variance : ℝ) < 0.05 * (avg : ℝ) := by
        rw [div_lt_iff₀ hposR] at h
        exact h
      have hltR : (variance : ℝ) < (0.05 * (avg : ℝ)) ^ 2 :=
        (Real.sqrt_lt' h05).mp hsq
      have hlt : variance < (0.05 * avg) ^ 2 := by
        apply (Rat.cast_lt (K := ℝ)).mp
        push_cast
        exact hltR
      rw [if_pos hlt]
  · subst hzero
    norm_num
  · have hne : ((avg : ℝ)) ≠ 0 := by
      exact_mod_cast ne_of_lt hneg
    rw [if_neg (not_lt.2 (le_of_lt hneg)), if_neg hne]
    have hnegR : ((avg : ℝ)) < 0 := by exact_mod_cast hneg
    have hq : Real.sqrt (variance : ℝ) / (avg : ℝ) ≤ 0 :=
      div_nonpos_iff.mpr (Or.inl ⟨Real.sqrt_nonneg _, le_of_lt hnegR⟩)
    constructor
    · intro _
      linarith
    · intro _
      rfl

/-- C6: findPlateaus reports false for fewer than 4 entries (no error);
with at least 4 entries it reports true exactly when the coefficient of
variation (population standard deviation over mean, 0 at mean 0) of the
most recent 4 values is below 0.05; four equal values give true, the
concrete 20%-growth series 100, 120, 144, 172.8 gives false, and any
two-entry series gives false. -/
theorem claim_C6 :
    (∀ (s : List WeeklyStats) (m : Metric), s.length < 4 →
      findPlateaus s m = false) ∧
    (∀ (s : List WeeklyStats) (m : Metric), 4 ≤ s.length →
      (findPlateaus s m = true ↔
        (if (((((s.drop (s.length - 4)).map (fun w => metricValue w m)).sum /
              ((((s.drop (s.length - 4)).map (fun w => metricValue w m)).length : ℚ))) : ℚ) : ℝ) = 0
         then (0 : ℝ)
         else Real.sqrt
            ((((((s.drop (s.length - 4)).map (fun w => metricValue w m)).map
                (fun v => (v - (((s.drop (s.length - 4)).map (fun w => metricValue w m)).sum /
                  ((((s.drop (s.length - 4)).map (fun w => metricValue w m)).length : ℚ)))) ^ 2)).sum /
              ((((s.drop (s.length - 4)).map (fun w => metricValue w m)).length : ℚ))) : ℚ) : ℝ) /
            ((((((s.drop (s.length - 4)).map (fun w => metricValue w m)).sum /
              ((((s.drop (s.length - 4)).map (fun w => metricValue w m)).length : ℚ))) : ℚ)) : ℝ)) < 0.05)) ∧
    (∀ (v : ℚ) (a b c d : WeeklyStats) (m : Metric),
      metricValue a m = v → metricValue b m = v → metricValue c m = v →
      metricValue d m = v → findPlateaus [a, b, c, d] m = true) ∧
    findPlateaus [mkWS 100, mkWS 120, mkWS 144, mkWS (864 / 5)]
      Metric.totalVolume = false ∧
    (∀ (a b : WeeklyStats) (m : Metric), findPlateaus [a, b] m = false) := by
  refine ⟨?_, ?_, ?_, ?_, ?_⟩
  · intro s m h
    unfold findPlateaus
    rw [if_pos h]
  · intro s m h4
    unfold findPlateaus
    rw [if_neg (by omega : ¬ s.length < 4)]
    exact plateau_branch_iff _ _
  · intro v a b c d m ha hb hc hd
    unfold findPlateaus
    norm_num [ha, hb, hc, hd]
    rcases le_or_lt v 0 with hle | hpos
    · exact Or.inl (by linarith)
    · refine Or.inr ?_
      have hv4 : (v + (v + (v + v))) / 4 = v := by ring
      rw [hv4]
      have h0 : ((v - v) ^ 2 + ((v - v) ^ 2 + ((v - v) ^ 2 + (v - v) ^ 2))) / 4
          = 0 := by ring
      rw [h0]
      exact pow_pos (mul_pos (by norm_num) hpos) 2
  · norm_num [findPlateaus, mkWS, metricValue]
  · intro a b m
    rfl

/-- Witness for C6: the boundary hypotheses discharged at concrete
inputs, a 4-entry constant series and the length guard at two entries. -/
theorem claim_C6_witness :
    ([mkWS 3, mkWS 4].length < 4 ∧
      findPlateaus [mkWS 3, mkWS 4] Metric.totalVolume = false) ∧
    (metricValue (mkWS 7) Metric.totalVolume = 7 ∧
      findPlateaus [mkWS 7, mkWS 7, mkWS 7, mkWS 7] Metric.totalVolume = true) :=
  ⟨⟨by decide, claim_C6.1 [mkWS 3, mkWS 4] Metric.totalVolume (by decide)⟩,
   ⟨rfl, claim_C6.2.2.1 7 (mkWS 7) (mkWS 7) (mkWS 7) (mkWS 7)
      Metric.totalVolume rfl rfl rfl rfl⟩⟩

/-- Looking a key up in the empty weekly map. -/
theorem lookupWeek_nil (k : ℤ) : lookupWeek [] k = none := rfl

/-- Looking up the key just set. -/
theorem lookupWeek_setWeek_self (m : List (ℤ × WeekData)) (k : ℤ)
    (v : WeekData) : lookupWeek (setWeek m k v) k = some v := by
  induction m with
  | nil => simp [setWeek, lookupWeek]
  | cons p rest ih =>
    by_cases h : p.1 = k
    · simp [setWeek, h, lookupWeek]
    · simp only [setWeek, if_neg h]
      simpa [lookupWeek, List.find?, h] using ih

/-- Setting one key leaves lookups of other keys unchanged. -/
theorem lookupWeek_setWeek_other (m : List (ℤ × WeekData)) (k k' : ℤ)
    (v : WeekData) (h : k' ≠ k) :
    lookupWeek (setWeek m k v) k' = lookupWeek m k' := by
  induction m with
  | nil => simp [setWeek, lookupWeek, List.find?, Ne.symm h]
  | cons p rest ih =>
    by_cases hp : p.1 = k
    · subst hp
      simp [setWeek, lookupWeek, List.find?, Ne.symm h]
    · simp only [setWeek, if_neg hp]
      by_cases hp' : p.1 = k'
      · simp [lookupWeek, List.find?, hp']
      · simpa [lookupWeek, List.find?, hp'] using ih

/-- Setting an absent key appends an entry. -/
theorem setWeek_length_new (m : List (ℤ × WeekData)) (k : ℤ) (v : WeekData)
    (h : lookupWeek m k = none) : (setWeek m k v).length = m.length + 1 := by
  induction m with
  | nil => rfl
  | cons p rest ih =>
    by_cases hp : p.1 = k
    · simp [lookupWeek, List.find?, hp] at h
    · simp only [setWeek, if_neg hp, List.length_cons]
      rw [ih]
      simpa [lookupWeek, List.find?, hp] using h

/-- Setting a present key overwrites in place. -/
theorem setWeek_length_old (m : List (ℤ × WeekData)) (k : ℤ) (v : WeekData)
    (h : (lookupWeek m k).isSome) : (setWeek m k v).length = m.length := by
  induction m with
  | nil => simp [lookupWeek, List.find?] at h
  | cons p rest ih =>
    by_cases hp : p.1 = k
    · simp [setWeek, hp]
    · simp only [setWeek, if_neg hp, List.length_cons]
      rw [ih]
      simpa [lookupWeek, List.find?, hp] using h

/-- Folding a workout whose week is not yet bucketed grows the map by
one entry. -/
theorem addToWeek_length_new (m : List (ℤ × WeekData)) (w : Workout)
    (h : lookupWeek m (getWeekStart w.date) = none) :
    (addToWeek m w).length = m.length + 1 := by
  simp only [addToWeek, h, lookupWeek_setWeek_self]
  rw [setWeek_length_old _ _ _ (by rw [lookupWeek_setWeek_self]; rfl)]
  exact setWeek_length_new m _ _ h

/-- Folding a workout leaves lookups of other weeks unchanged. -/
theorem lookupWeek_addToWeek_other (m : List (ℤ × WeekData)) (w : Workout)
    (k' : ℤ) (h : k' ≠ getWeekStart w.date) :
    lookupWeek (addToWeek m w) k' = lookupWeek m k' := by
  cases hm : lookupWeek m (getWeekStart w.date) with
  | none =>
    simp only [addToWeek, hm, lookupWeek_setWeek_self]
    rw [lookupWeek_setWeek_other _ _ _ _ h, lookupWeek_setWeek_other _ _ _ _ h]
  | some d =>
    simp only [addToWeek, hm]
    rw [lookupWeek_setWeek_other _ _ _ _ h]

/-- C7: two dates 8 days apart start different weeks, two dates exactly 7
days apart (same weekday, consecutive weeks) start different weeks, two
workouts 8 days apart produce two distinct buckets in the weekly series,
and the emitted series is sorted oldest to newest by bucket start. -/
theorem claim_C7 :
    (∀ d : ℤ, getWeekStart (d + 8) ≠ getWeekStart d) ∧
    (∀ d : ℤ, getWeekStart (d + 7) ≠ getWeekStart d) ∧
    (∀ w1 w2 : Workout, w2.date = w1.date + 8 →
      (calculateWeeklyProgress [w1, w2]).length = 2) ∧
    (∀ ws : List Workout, (calculateWeeklyProgress ws).Sorted byWeekAsc) := by
  refine ⟨?_, ?_, ?_, ?_⟩
  · intro d
    unfold getWeekStart
    omega
  · intro d
    unfold getWeekStart
    omega
  · intro w1 w2 h8
    have hne : getWeekStart w2.date ≠ getWeekStart w1.date := by
      rw [h8]
      unfold getWeekStart
      omega
    unfold calculateWeeklyProgress
    rw [(List.perm_insertionSort byWeekAsc _).length_eq, List.length_map]
    have h1 : (addToWeek [] w1).length = 1 :=
      addToWeek_length_new [] w1 (lookupWeek_nil _)
    have h2 : lookupWeek (addToWeek [] w1) (getWeekStart w2.date) = none := by
      rw [lookupWeek_addToWeek_other [] w1 _ hne]
      exact lookupWeek_nil _
    show (addToWeek (addToWeek [] w1) w2).length = 2
    rw [addToWeek_length_new _ w2 h2, h1]
  · intro ws
    exact List.sorted_insertionSort byWeekAsc _

/-- Witness for C7 at two empty workouts dated day 0 and day 8. -/
theorem claim_C7_witness :
    (dayW 8).date = (dayW 0).date + 8 ∧
    (calculateWeeklyProgress [dayW 0, dayW 8]).length = 2 :=
  ⟨by decide, claim_C7.2.2.1 (dayW 0) (dayW 8) (by decide)⟩

/-- The walk counts at most fuel days. -/
theorem countBack_le (dates : List ℤ) (d : ℤ) (f : ℕ) :
    countBack dates d f ≤ f := by
  induction f generalizing d with
  | zero => simp [countBack]
  | succ f ih =>
    unfold countBack
    by_cases h : d ∈ dates
    · rw [if_pos h]
      exact Nat.succ_le_succ (ih (d - 1))
    · rw [if_neg h]
      exact Nat.zero_le _

/-- Every day the walk counted is present in the date set. -/
theorem mem_of_lt_countBack (dates : List ℤ) (d : ℤ) (f : ℕ) :
    ∀ k : ℕ, k < countBack dates d f → (d - (k : ℤ)) ∈ dates := by
  induction f generalizing d with
  | zero => intro k hk; simp [countBack] at hk
  | succ f ih =>
    intro k hk
    unfold countBack at hk
    by_cases h : d ∈ dates
    · rw [if_pos h] at hk
      cases k with
      | zero => simpa using h
      | succ k =>
        have hk' : k < countBack dates (d - 1) f := by omega
        have hmem := ih (d - 1) k hk'
        have heq : d - 1 - (k : ℤ) = d - ((k + 1 : ℕ) : ℤ) := by
          push_cast
          ring
        rw [heq] at hmem
        exact hmem
    · rw [if_neg h] at hk
      omega

/-- When the walk stops before exhausting its fuel, the day after the
counted run is genuinely absent. -/
theorem not_mem_of_countBack_lt (dates : List ℤ) (d : ℤ) (f : ℕ)
    (h : countBack dates d f < f) :
    (d - (countBack dates d f : ℤ)) ∉ dates := by
  induction f generalizing d with
  | zero => omega
  | succ f ih =>
    by_cases hd : d ∈ dates
    · have hcb : countBack dates d (f + 1) = countBack dates (d - 1) f + 1 := by
        simp only [countBack, if_pos hd]
      rw [hcb] at h ⊢
      have h' : countBack dates (d - 1) f < f := by omega
      have hnm := ih (d - 1) h'
      have heq : d - 1 - (countBack dates (d - 1) f : ℤ)
          = d - ((countBack dates (d - 1) f + 1 : ℕ) : ℤ) := by
        push_cast
        ring
      rw [heq] at hnm
      exact hnm
    · have hcb : countBack dates d (f + 1) = 0 := by
        unfold countBack
        rw [if_neg hd]
      rw [hcb]
      simpa using hd

/-- The fuel bound dates.length is never the reason the walk stops: if
the count reaches the full fuel, the next day is absent anyway, because
the counted days are pairwise distinct members of the list. -/
theorem countBack_saturate (dates : List ℤ) (d : ℤ)
    (h : countBack dates d dates.length = dates.length) :
    (d - (dates.length : ℤ)) ∉ dates := by
  intro hmem
  have hsub : ((Finset.range (dates.length + 1)).image
      (fun k : ℕ => d - (k : ℤ))) ⊆ dates.toFinset := by
    intro x hx
    simp only [Finset.mem_image, Finset.mem_range] at hx
    obtain ⟨k, hk, rfl⟩ := hx
    rcases Nat.lt_or_ge k dates.length with hkL | hkL
    · refine List.mem_toFinset.mpr ?_
      exact mem_of_lt_countBack dates d dates.length k (by omega)
    · have hkeq : k = dates.length := by omega
      subst hkeq
      exact List.mem_toFinset.mpr hmem
  have hinj : Function.Injective (fun k : ℕ => d - (k : ℤ)) := by
    intro a b hab
    simp only at hab
    omega
  have hcard : ((Finset.range (dates.length + 1)).image
      (fun k : ℕ => d - (k : ℤ))).card = dates.length + 1 := by
    rw [Finset.card_image_of_injective _ hinj, Finset.card_range]
  have hle : dates.toFinset.card ≤ dates.length := dates.toFinset_card_le
  have := Finset.card_le_card hsub
  omega

/-- The walk depends on the date list only through membership. -/
theorem countBack_congr (s1 s2 : List ℤ)
    (h : ∀ x : ℤ, x ∈ s1 ↔ x ∈ s2) (d : ℤ) (f : ℕ) :
    countBack s1 d f = countBack s2 d f := by
  induction f generalizing d with
  | zero => rfl
  | succ f ih =>
    unfold countBack
    by_cases hd : d ∈ s1
    · rw [if_pos hd, if_pos ((h d).mp hd), ih]
    · rw [if_neg hd, if_neg (fun hc => hd ((h d).mpr hc))]

/-- C1: the dashboard streak (computed over the sorted list, today being
an explicit parameter) is 0 when the most recent workout date is more
than one day before today; otherwise it counts a maximal run of
consecutive present days walking back from today (from yesterday when
today is absent): every day inside the count is present and the next one
is absent.  The four boundary examples of the spec hold. -/
theorem claim_C1 :
    (∀ (ws : List Workout) (today recent : ℤ),
      ws ≠ [] →
      recent ∈ ws.map (fun w => w.date) →
      (∀ x ∈ ws.map (fun w => w.date), x ≤ recent) →
      ((1 < today - recent →
          calculateWorkoutStreak (sortByDateDesc ws) today = 0) ∧
       (today - recent ≤ 1 →
         (∀ k : ℕ, k < calculateWorkoutStreak (sortByDateDesc ws) today →
            ((if today ∈ ws.map (fun w => w.date) then today else today - 1)
              - (k : ℤ)) ∈ ws.map (fun w => w.date)) ∧
         ((if today ∈ ws.map (fun w => w.date) then today else today - 1)
            - (calculateWorkoutStreak (sortByDateDesc ws) today : ℤ))
            ∉ ws.map (fun w => w.date)))) ∧
    calculateWorkoutStreak (sortByDateDesc [dayW 100]) 100 = 1 ∧
    calculateWorkoutStreak (sortByDateDesc [dayW 100, dayW 99, dayW 98]) 100 = 3 ∧
    calculateWorkoutStreak (sortByDateDesc [dayW 99]) 100 = 1 ∧
    calculateWorkoutStreak (sortByDateDesc [dayW 97]) 100 = 0 := by
  refine ⟨?_, by decide, by decide, by decide, by decide⟩
  intro ws today recent hne hmem hmax
  cases hs : sortByDateDesc ws with
  | nil =>
    exfalso
    have hlen := (List.perm_insertionSort byDateDesc ws).length_eq
    rw [show List.insertionSort byDateDesc ws = sortByDateDesc ws from rfl, hs] at hlen
    exact hne (List.length_eq_zero.mp hlen.symm)
  | cons hd tl =>
    have hperm : List.Perm (sortByDateDesc ws) ws := List.perm_insertionSort byDateDesc ws
    have hhd : hd ∈ ws := by
      have : hd ∈ sortByDateDesc ws := by
        rw [hs]
        exact List.mem_cons_self _ _
      exact hperm.mem_iff.mp this
    have hdate : hd.date = recent := by
      apply le_antisymm
      · exact hmax _ (List.mem_map_of_mem _ hhd)
      · obtain ⟨w, hw, hwd⟩ := List.mem_map.mp hmem
        have hwsort : w ∈ sortByDateDesc ws := hperm.mem_iff.mpr hw
        rw [hs] at hwsort
        rcases List.mem_cons.mp hwsort with heq | hwt
        · rw [heq] at hwd
          exact le_of_eq hwd.symm
        · have hsorted : List.Sorted byDateDesc (sortByDateDesc ws) :=
            List.sorted_insertionSort byDateDesc ws
          rw [hs] at hsorted
          have hrel : byDateDesc hd w := (List.sorted_cons.mp hsorted).1 w hwt
          rw [← hwd]
          exact hrel
    have hiff : ∀ x : ℤ,
        x ∈ (hd :: tl).map (fun w => w.date) ↔ x ∈ ws.map (fun w => w.date) := by
      have hpm : List.Perm ((hd :: tl).map (fun w => w.date)) (ws.map (fun w => w.date)) := by
        rw [← hs]
        exact hperm.map _
      exact fun x => hpm.mem_iff
    have hlen : (hd :: tl).length = ws.length := by
      rw [← hs]
      exact hperm.length_eq
    constructor
    · intro hgap
      simp only [calculateWorkoutStreak]
      rw [hdate, if_pos hgap]
    · intro hclose
      have hstreak : calculateWorkoutStreak (hd :: tl) today
          = countBack (ws.map (fun w => w.date))
              (if today ∈ ws.map (fun w => w.date) then today else today - 1)
              ws.length := by
        simp only [calculateWorkoutStreak]
        rw [hdate, if_neg (not_lt.mpr hclose)]
        rw [countBack_congr _ _ hiff, hlen]
        by_cases htoday : today ∈ ws.map (fun w => w.date)
        · rw [if_pos ((hiff today).mpr htoday), if_pos htoday]
        · rw [if_neg (fun hc => htoday ((hiff today).mp hc)),
            if_neg htoday]
      rw [hstreak]
      constructor
      · intro k hk
        exact mem_of_lt_countBack _ _ _ k hk
      · have hle := countBack_le (ws.map (fun w => w.date))
          (if today ∈ ws.map (fun w => w.date) then today else today - 1)
          ws.length
        rcases lt_or_eq_of_le hle with hlt | heq
        · exact not_mem_of_countBack_lt _ _ _ hlt
        · have hD : (ws.map (fun w => w.date)).length = ws.length :=
            List.length_map _ _
          have hsat := countBack_saturate (ws.map (fun w => w.date))
            (if today ∈ ws.map (fun w => w.date) then today else today - 1)
            (by rw [hD, heq])
          rw [hD] at hsat
          rw [heq]
          exact hsat

/-- Witness for C1 at the single workout dated day 100 with today = 100. -/
theorem claim_C1_witness :
    ((1 < (100 : ℤ) - 100 →
        calculateWorkoutStreak (sortByDateDesc [dayW 100]) 100 = 0) ∧
     ((100 : ℤ) - 100 ≤ 1 →
       (∀ k : ℕ, k < calculateWorkoutStreak (sortByDateDesc [dayW 100]) 100 →
          ((if (100 : ℤ) ∈ [dayW 100].map (fun w => w.date) then (100 : ℤ)
            else 100 - 1) - (k : ℤ)) ∈ [dayW 100].map (fun w => w.date)) ∧
       ((if (100 : ℤ) ∈ [dayW 100].map (fun w => w.date) then (100 : ℤ)
          else 100 - 1)
          - (calculateWorkoutStreak (sortByDateDesc [dayW 100]) 100 : ℤ))
          ∉ [dayW 100].map (fun w => w.date))) :=
  claim_C1.1 [dayW 100] 100 100 (by decide) (by decide) (by decide)

/-- Unfolding of cursor validity. -/
theorem cursorValid_true_iff (w : Workout) (s : WorkoutSession) :
    cursorValid w s = true ↔
      ∃ ex, w.exercises[s.currentExerciseIndex]? = some ex ∧
        s.currentSetIndex < ex.sets.length := by
  unfold cursorValid
  cases h : w.exercises[s.currentExerciseIndex]? with
  | none => simp [h]
  | some ex => simp [h]

/-- The fresh session cursor is valid on a well-formed workout. -/
theorem cursorValid_init (w : Workout) (hne : w.exercises ≠ [])
    (hsets : ∀ e ∈ w.exercises, e.sets ≠ []) :
    cursorValid w initSession.session = true := by
  rw [cursorValid_true_iff]
  cases hw : w.exercises with
  | nil => exact absurd hw hne
  | cons e es =>
    refine ⟨e, by simp [initSession, hw], ?_⟩
    have he : e ∈ w.exercises := by
      rw [hw]
      exact List.mem_cons_self _ _
    simpa [initSession] using List.length_pos.mpr (hsets e he)

/-- moveToNextExercise preserves cursor validity on a well-formed
workout. -/
theorem cursorValid_moveToNextExercise (w : Workout)
    (hsets : ∀ e ∈ w.exercises, e.sets ≠ []) (st : ExecutorState)
    (hv : cursorValid w st.session = true) :
    cursorValid w (moveToNextExercise w st).session = true := by
  unfold moveToNextExercise
  by_cases h : (st.session.currentExerciseIndex : ℤ) <
      (w.exercises.length : ℤ) - 1
  · rw [if_pos h]
    rw [cursorValid_true_iff]
    have hlt : st.session.currentExerciseIndex + 1 < w.exercises.length := by
      omega
    refine ⟨w.exercises[st.session.currentExerciseIndex + 1], ?_, ?_⟩
    · simp [List.getElem?_eq_getElem hlt]
    · have hm : w.exercises[st.session.currentExerciseIndex + 1] ∈ w.exercises :=
        List.getElem_mem hlt
      simpa using List.length_pos.mpr (hsets _ hm)
  · rw [if_neg h]
    exact hv

/-- completeSet preserves cursor validity on a well-formed workout. -/
theorem cursorValid_completeSet (w : Workout)
    (hsets : ∀ e ∈ w.exercises, e.sets ≠ []) (st : ExecutorState)
    (reps wt : ℚ) (hv : cursorValid w st.session = true) :
    cursorValid w (completeSet w st reps wt).session = true := by
  unfold completeSet
  split
  · exact hv
  · dsimp only
    split
    · split
      · exact hv
      · exact cursorValid_moveToNextExercise w hsets _ hv
    · exact hv

/-- moveToNextSet preserves cursor validity on a well-formed workout. -/
theorem cursorValid_moveToNextSet (w : Workout)
    (hsets : ∀ e ∈ w.exercises, e.sets ≠ []) (st : ExecutorState)
    (hv : cursorValid w st.session = true) :
    cursorValid w (moveToNextSet w st).session = true := by
  unfold moveToNextSet
  cases hce : getCurrentExercise w st.session with
  | none => exact hv
  | some ex =>
    simp only
    by_cases h : (st.session.currentSetIndex : ℤ) < (ex.sets.length : ℤ) - 1
    · rw [if_pos h]
      rw [cursorValid_true_iff]
      refine ⟨ex, ?_, ?_⟩
      · simpa [getCurrentExercise] using hce
      · simp only
        omega
    · rw [if_neg h]
      exact cursorValid_moveToNextExercise w hsets st hv

/-- C2 counterexample: on a workout whose middle exercise has no sets,
one completeSet from the fresh session is a reachable state whose cursor
(1, 0) neither indexes an existing Exercise/Set pair nor sits at the
terminal past-last-set position, and completion is not signaled. -/
theorem claim_C2_counterexample :
    Reachable wGapExercises (completeSet wGapExercises initSession 10 16) ∧
    cursorValid wGapExercises
      (completeSet wGapExercises initSession 10 16).session = false ∧
    cursorTerminal wGapExercises
      (completeSet wGapExercises initSession 10 16).session = false ∧
    (completeSet wGapExercises initSession 10 16).workoutCompleted = false :=
  ⟨Reachable.completeSetStep 10 16 Reachable.init, by decide, by decide,
    by decide⟩

/-- C2 amended: when the workout has at least one exercise and every
exercise has at least one set, every reachable session state — fresh
start, after completeSet, after advancing past or skipping rest, after
pause/resume, and after restoring a written snapshot — has a cursor that
indexes a valid Exercise/Set pair (completion is signaled by the
completed flag while the cursor stays on the last set, so the claimed
disjunction holds with the first disjunct). -/
theorem claim_C2_amended (w : Workout) (hne : w.exercises ≠ [])
    (hsets : ∀ e ∈ w.exercises, e.sets ≠ []) (st : ExecutorState)
    (hr : Reachable w st) : cursorValid w st.session = true := by
  induction hr with
  | init => exact cursorValid_init w hne hsets
  | completeSetStep reps wt _ ih => exact cursorValid_completeSet w hsets _ reps wt ih
  | restDone _ ih => exact cursorValid_moveToNextSet w hsets _ ih
  | skipRestStep _ ih => exact cursorValid_moveToNextSet w hsets _ ih
  | pauseStep _ ih => exact ih
  | resumeStep _ ih => exact ih
  | restore _ ih => exact ih

/-- Witness for the amended C2 at the minimal workout and the fresh
session. -/
theorem claim_C2_witness :
    wSimple.exercises ≠ [] ∧
    cursorValid wSimple initSession.session = true :=
  ⟨by decide,
    claim_C2_amended wSimple (by decide) (by decide) initSession Reachable.init⟩

/-- find? only looks at the predicate's values on the list. -/
theorem list_find?_congr {α : Type} (l : List α) (p q : α → Bool)
    (h : ∀ x ∈ l, p x = q x) : l.find? p = l.find? q := by
  induction l with
  | nil => rfl
  | cons a l ih =>
    cases hq : q a with
    | true =>
      rw [List.find?_cons_of_pos _ (by rw [h a (List.mem_cons_self a l)]; exact hq),
        List.find?_cons_of_pos _ hq]
    | false =>
      rw [List.find?_cons_of_neg _ (by rw [h a (List.mem_cons_self a l)]; simp [hq]),
        List.find?_cons_of_neg _ (by simp [hq])]
      exact ih (fun x hx => h x (List.mem_cons_of_mem a hx))

/-- Dropping a strictly dominated head does not change the first
maximum. -/
theorem firstMax_cons_lt (b c : PersonalRecord) (l : List PersonalRecord)
    (h : b.value < c.value) :
    firstMax (b :: c :: l) = firstMax (c :: l) := by
  unfold firstMax
  have hpb : ((b :: c :: l).all (fun r2 => decide (r2.value ≤ b.value))) = false := by
    rw [List.all_eq_false]
    exact ⟨c, List.mem_cons_of_mem _ (List.mem_cons_self _ _),
      by simpa using not_le.mpr h⟩
  rw [List.find?_cons_of_neg _ (by simp [hpb])]
  apply list_find?_congr
  intro x _
  cases hA : ((c :: l).all (fun r2 => decide (r2.value ≤ x.value))) with
  | false =>
    rw [List.all_cons, hA, Bool.and_false]
  | true =>
    have hcx : c.value ≤ x.value := by
      have := (List.all_eq_true.mp hA) c (List.mem_cons_self _ _)
      simpa using this
    have hbx : b.value ≤ x.value := le_trans (le_of_lt h) hcx
    rw [List.all_cons, hA, Bool.and_true]
    simpa using hbx

/-- Dropping a tied-or-smaller second element does not change the first
maximum. -/
theorem firstMax_cons_ge (b c : PersonalRecord) (l : List PersonalRecord)
    (h : c.value ≤ b.value) :
    firstMax (b :: c :: l) = firstMax (b :: l) := by
  unfold firstMax
  have hpoint : ∀ x : PersonalRecord,
      ((b :: c :: l).all (fun r2 => decide (r2.value ≤ x.value)))
        = ((b :: l).all (fun r2 => decide (r2.value ≤ x.value))) := by
    intro x
    cases hbx : (decide (b.value ≤ x.value)) with
    | false =>
      rw [List.all_cons, hbx, Bool.false_and, List.all_cons, hbx, Bool.false_and]
    | true =>
      have hb' : b.value ≤ x.value := of_decide_eq_true hbx
      have hcx : (decide (c.value ≤ x.value)) = true :=
        decide_eq_true (le_trans h hb')
      simp only [List.all_cons, hbx, hcx, Bool.true_and]
  cases hb : ((b :: l).all (fun r2 => decide (r2.value ≤ b.value))) with
  | true =>
    rw [List.find?_cons_of_pos
        (p := fun (r : PersonalRecord) => (b :: c :: l).all (fun r2 => decide (r2.value ≤ r.value)))
        _ (by
          show ((b :: c :: l).all (fun r2 => decide (r2.value ≤ b.value))) = true
          rw [hpoint b]
          exact hb),
      List.find?_cons_of_pos
        (p := fun (r : PersonalRecord) => (b :: l).all (fun r2 => decide (r2.value ≤ r.value)))
        _ hb]
  | false =>
    have hpc : ((b :: c :: l).all (fun r2 => decide (r2.value ≤ c.value))) = false := by
      cases hpc : ((b :: c :: l).all (fun r2 => decide (r2.value ≤ c.value))) with
      | false => rfl
      | true =>
        exfalso
        have hall := List.all_eq_true.mp hpc
        have hpbtrue : ((b :: l).all (fun r2 => decide (r2.value ≤ b.value))) = true := by
          rw [← hpoint b]
          rw [List.all_eq_true]
          intro r2 hr2
          have hr2c : r2.value ≤ c.value := by
            have := hall r2 hr2
            simpa using this
          exact decide_eq_true (le_trans hr2c h)
        rw [hpbtrue] at hb
        exact Bool.noConfusion hb
    rw [List.find?_cons_of_neg
        (p := fun (r : PersonalRecord) => (b :: c :: l).all (fun r2 => decide (r2.value ≤ r.value)))
        _ (by
          show ¬ ((b :: c :: l).all (fun r2 => decide (r2.value ≤ b.value))) = true
          rw [hpoint b]
          simp only [hb]
          decide),
      List.find?_cons_of_neg
        (p := fun (r : PersonalRecord) => (b :: c :: l).all (fun r2 => decide (r2.value ≤ r.value)))
        _ (by
          show ¬ ((b :: c :: l).all (fun r2 => decide (r2.value ≤ c.value))) = true
          simp only [hpc]
          decide),
      List.find?_cons_of_neg
        (p := fun (r : PersonalRecord) => (b :: l).all (fun r2 => decide (r2.value ≤ r.value)))
        _ (by
          show ¬ ((b :: l).all (fun r2 => decide (r2.value ≤ b.value))) = true
          simp only [hb]
          decide)]
    exact list_find?_congr _ _ _ (fun x _ => hpoint x)

/-- The scan's left fold with a seeded slot computes the first maximum of
the seed followed by the candidates. -/
theorem foldBest_some (l : List PersonalRecord) :
    ∀ b : PersonalRecord, foldBest (some b) l = firstMax (b :: l) := by
  induction l with
  | nil =>
    intro b
    have h1 : foldBest (some b) [] = some b := rfl
    rw [h1]
    unfold firstMax
    rw [List.find?_cons_of_pos _ (by simp)]
  | cons c l ih =>
    intro b
    have hstep : foldBest (some b) (c :: l) = foldBest (updateBest (some b) c) l := rfl
    rw [hstep]
    by_cases hbc : b.value < c.value
    · have hub : updateBest (some b) c = some c := by
        simp [updateBest, hbc]
      rw [hub, ih c, firstMax_cons_lt b c l hbc]
    · have hub : updateBest (some b) c = some b := by
        simp [updateBest, hbc]
      rw [hub, ih b, firstMax_cons_ge b c l (not_lt.mp hbc)]

/-- The scan's left fold from an empty slot computes the first maximum of
the candidates. -/
theorem foldBest_eq_firstMax (l : List PersonalRecord) :
    foldBest none l = firstMax l := by
  cases l with
  | nil => rfl
  | cons r l =>
    have h1 : foldBest none (r :: l) = foldBest (some r) l := rfl
    rw [h1, foldBest_some]

/-- Looking up the key just set in the records map. -/
theorem lookupAssoc_setAssoc_self (m : List (String × RecordTriple))
    (k : String) (v : RecordTriple) :
    lookupAssoc (setAssoc m k v) k = some v := by
  induction m with
  | nil => simp [setAssoc, lookupAssoc]
  | cons p rest ih =>
    by_cases h : p.1 = k
    · simp [setAssoc, h, lookupAssoc]
    · simp only [setAssoc, if_neg h]
      simpa [lookupAssoc, List.find?, h] using ih

/-- Setting one key leaves lookups of other keys in the records map
unchanged. -/
theorem lookupAssoc_setAssoc_other (m : List (String × RecordTriple))
    (k k' : String) (v : RecordTriple) (h : k' ≠ k) :
    lookupAssoc (setAssoc m k v) k' = lookupAssoc m k' := by
  induction m with
  | nil => simp [setAssoc, lookupAssoc, List.find?, Ne.symm h]
  | cons p rest ih =>
    by_cases hp : p.1 = k
    · subst hp
      simp [setAssoc, lookupAssoc, List.find?, Ne.symm h]
    · simp only [setAssoc, if_neg hp]
      by_cases hp' : p.1 = k'
      · simp [lookupAssoc, List.find?, hp']
      · simpa [lookupAssoc, List.find?, hp'] using ih

/-- The initialized records map: one empty triple per catalog id. -/
theorem lookupAssoc_initMap (ets : List ExerciseType) (tid : String) :
    ∀ m0 : List (String × RecordTriple),
    lookupAssoc
      (ets.foldl (fun m et => setAssoc m et.id ⟨none, none, none⟩) m0) tid
    = if (ets.find? (fun et => et.id = tid)).isSome
      then some ⟨none, none, none⟩
      else lookupAssoc m0 tid := by
  induction ets with
  | nil => intro m0; simp [List.find?]
  | cons et rest ih =>
    intro m0
    by_cases het : et.id = tid
    · rw [List.foldl_cons, ih]
      rw [List.find?_cons_of_pos _ (by simpa using het)]
      by_cases hr : (rest.find? (fun x => x.id = tid)).isSome
      · rw [if_pos hr]
        simp
      · rw [if_neg hr]
        subst het
        simp [lookupAssoc_setAssoc_self]
    · rw [List.foldl_cons, ih]
      rw [List.find?_cons_of_neg _ (by simpa using het)]
      by_cases hr : (rest.find? (fun x => x.id = tid)).isSome
      · rw [if_pos hr, if_pos hr]
      · rw [if_neg hr, if_neg hr]
        exact lookupAssoc_setAssoc_other m0 et.id tid _ (fun hc => het hc.symm)

/-- Effect of processing one exercise on the lookup of a fixed type id. -/
theorem lookupAssoc_applyExercise (ets : List ExerciseType) (w : Workout)
    (m : List (String × RecordTriple)) (e : Exercise) (tid : String) :
    lookupAssoc (applyExercise ets w m e) tid =
      if e.exerciseType = tid then
        (match ets.find? (fun et => et.id = tid), lookupAssoc m tid with
         | some et, some t => some (e.sets.foldl (applySet tid et.name w) t)
         | some _, none => lookupAssoc m tid
         | none, _ => lookupAssoc m tid)
      else lookupAssoc m tid := by
  by_cases he : e.exerciseType = tid
  · subst he
    rw [if_pos rfl]
    unfold applyExercise
    cases hf : ets.find? (fun et => et.id = e.exerciseType) with
    | none => simp
    | some et =>
      cases hl : lookupAssoc m e.exerciseType with
      | none => exact hl
      | some t =>
        simp only
        rw [lookupAssoc_setAssoc_self]
  · rw [if_neg he]
    unfold applyExercise
    cases hf : ets.find? (fun et => et.id = e.exerciseType) with
    | none => rfl
    | some et =>
      cases hl : lookupAssoc m e.exerciseType with
      | none => rfl
      | some t =>
        simp only
        exact lookupAssoc_setAssoc_other m e.exerciseType tid _ (fun hc => he hc.symm)

/-- Folding a workout's exercises: the fixed type's triple evolves by the
per-type scan, everything read through the lookup. -/
theorem lookupAssoc_foldExercises (ets : List ExerciseType) (w : Workout)
    (tid : String) (et : ExerciseType)
    (hf : ets.find? (fun x => x.id = tid) = some et) :
    ∀ (exs : List Exercise) (m : List (String × RecordTriple))
      (t : RecordTriple), lookupAssoc m tid = some t →
      lookupAssoc (exs.foldl (applyExercise ets w) m) tid
        = some (tripleScanExercises tid et.name w t exs) := by
  intro exs
  induction exs with
  | nil =>
    intro m t hl
    simpa [tripleScanExercises] using hl
  | cons e rest ih =>
    intro m t hl
    rw [List.foldl_cons]
    by_cases he : e.exerciseType = tid
    · have hstep : lookupAssoc (applyExercise ets w m e) tid
          = some (e.sets.foldl (applySet tid et.name w) t) := by
        rw [lookupAssoc_applyExercise, if_pos he, hf, hl]
      rw [ih _ _ hstep]
      unfold tripleScanExercises
      rw [List.foldl_cons, if_pos he]
    · have hstep : lookupAssoc (applyExercise ets w m e) tid
          = some t := by
        rw [lookupAssoc_applyExercise, if_neg he]
        exact hl
      rw [ih _ _ hstep]
      unfold tripleScanExercises
      rw [List.foldl_cons, if_neg he]

/-- An absent key stays absent through an exercise fold. -/
theorem lookupAssoc_foldExercises_none (ets : List ExerciseType) (w : Workout)
    (tid : String) :
    ∀ (exs : List Exercise) (m : List (String × RecordTriple)),
      lookupAssoc m tid = none →
      lookupAssoc (exs.foldl (applyExercise ets w) m) tid = none := by
  intro exs
  induction exs with
  | nil => intro m hl; simpa using hl
  | cons e rest ih =>
    intro m hl
    rw [List.foldl_cons]
    apply ih
    rw [lookupAssoc_applyExercise]
    by_cases he : e.exerciseType = tid
    · rw [if_pos he, hl]
      cases ets.find? (fun et => et.id = tid) <;> simp [hl]
    · rw [if_neg he]
      exact hl

/-- The full scan: the fixed type's triple is the per-type scan of all
workouts. -/
theorem lookupAssoc_scanWorkouts (ets : List ExerciseType) (tid : String)
    (et : ExerciseType) (hf : ets.find? (fun x => x.id = tid) = some et) :
    ∀ (ws : List Workout) (m : List (String × RecordTriple))
      (t : RecordTriple), lookupAssoc m tid = some t →
      lookupAssoc
          (ws.foldl (fun m w => w.exercises.foldl (applyExercise ets w) m) m)
          tid
        = some (tripleScanWorkouts tid et.name t ws) := by
  intro ws
  induction ws with
  | nil =>
    intro m t hl
    simpa [tripleScanWorkouts] using hl
  | cons w rest ih =>
    intro m t hl
    rw [List.foldl_cons]
    rw [ih _ _ (lookupAssoc_foldExercises ets w tid et hf w.exercises m t hl)]
    unfold tripleScanWorkouts
    rw [List.foldl_cons]

/-- An absent key stays absent through the full scan. -/
theorem lookupAssoc_scanWorkouts_none (ets : List ExerciseType) (tid : String) :
    ∀ (ws : List Workout) (m : List (String × RecordTriple)),
      lookupAssoc m tid = none →
      lookupAssoc
          (ws.foldl (fun m w => w.exercises.foldl (applyExercise ets w) m) m)
          tid = none := by
  intro ws
  induction ws with
  | nil => intro m hl; simpa using hl
  | cons w rest ih =>
    intro m hl
    rw [List.foldl_cons]
    exact ih _ (lookupAssoc_foldExercises_none ets w tid w.exercises m hl)

/-- The slot fold over a concatenation splits. -/
theorem foldBest_append (acc : Option PersonalRecord)
    (l1 l2 : List PersonalRecord) :
    foldBest acc (l1 ++ l2) = foldBest (foldBest acc l1) l2 := by
  unfold foldBest
  rw [List.foldl_append]

/-- applySet updates each slot independently with updateBest. -/
theorem tripleField_applySet (k : RecordType) (tid name : String)
    (w : Workout) (t : RecordTriple) (s : Set) :
    tripleField k (applySet tid name w t s)
      = updateBest (tripleField k t) (mkRecord tid name k (candValue k s) w) := by
  cases k <;> rfl

/-- Folding a set list into a triple, projected to one slot. -/
theorem tripleField_foldSets (k : RecordType) (tid name : String)
    (w : Workout) :
    ∀ (sets : List Set) (t : RecordTriple),
      tripleField k (sets.foldl (applySet tid name w) t)
        = foldBest (tripleField k t)
            (sets.map (fun s => mkRecord tid name k (candValue k s) w)) := by
  intro sets
  induction sets with
  | nil => intro t; rfl
  | cons s rest ih =>
    intro t
    rw [List.foldl_cons, ih, tripleField_applySet, List.map_cons]
    rfl

/-- Scanning a workout's exercises, projected to one slot. -/
theorem tripleField_scanExercises (k : RecordType) (tid name : String)
    (w : Workout) :
    ∀ (exs : List Exercise) (t : RecordTriple),
      tripleField k (tripleScanExercises tid name w t exs)
        = foldBest (tripleField k t)
            ((exs.map (fun e =>
                if e.exerciseType = tid then
                  e.sets.map (fun s => mkRecord tid name k (candValue k s) w)
                else [])).flatten) := by
  intro exs
  induction exs with
  | nil => intro t; rfl
  | cons e rest ih =>
    intro t
    unfold tripleScanExercises
    rw [List.foldl_cons]
    by_cases he : e.exerciseType = tid
    · rw [if_pos he]
      have := ih (e.sets.foldl (applySet tid name w) t)
      unfold tripleScanExercises at this
      rw [this, tripleField_foldSets, List.map_cons, if_pos he,
        List.flatten_cons, foldBest_append]
    · rw [if_neg he]
      have := ih t
      unfold tripleScanExercises at this
      rw [this, List.map_cons, if_neg he, List.flatten_cons, List.nil_append]

/-- The whole scan, projected to one slot. -/
theorem tripleField_scanWorkouts (k : RecordType) (tid name : String) :
    ∀ (ws : List Workout) (t : RecordTriple),
      tripleField k (tripleScanWorkouts tid name t ws)
        = foldBest (tripleField k t)
            ((ws.map (fun w =>
                (w.exercises.map (fun e =>
                  if e.exerciseType = tid then
                    e.sets.map (fun s => mkRecord tid name k (candValue k s) w)
                  else [])).flatten)).flatten) := by
  intro ws
  induction ws with
  | nil => intro t; rfl
  | cons w rest ih =>
    intro t
    unfold tripleScanWorkouts
    rw [List.foldl_cons]
    have := ih (tripleScanExercises tid name w t w.exercises)
    unfold tripleScanWorkouts at this
    rw [this, tripleField_scanExercises, List.map_cons, List.flatten_cons,
      foldBest_append]

/-- The record the scan computes for each (exercise type, kind) pair is
exactly the first maximum of that pair's candidates in scan order. -/
theorem slotOf_buildRecordsMap (ws : List Workout) (ets : List ExerciseType)
    (tid : String) (k : RecordType) :
    slotOf (buildRecordsMap ws ets) tid k
      = firstMax (recordCandidates ws ets tid k) := by
  cases hf : ets.find? (fun et => et.id = tid) with
  | none =>
    have hinit : lookupAssoc
        (ets.foldl (fun m et => setAssoc m et.id ⟨none, none, none⟩) []) tid
        = none := by
      rw [lookupAssoc_initMap, hf]
      rfl
    have hfinal : lookupAssoc (buildRecordsMap ws ets) tid = none := by
      unfold buildRecordsMap
      exact lookupAssoc_scanWorkouts_none ets tid ws _ hinit
    unfold slotOf
    rw [hfinal]
    unfold recordCandidates
    rw [hf]
    rfl
  | some et =>
    have hinit : lookupAssoc
        (ets.foldl (fun m et => setAssoc m et.id ⟨none, none, none⟩) []) tid
        = some ⟨none, none, none⟩ := by
      rw [lookupAssoc_initMap, hf]
      rfl
    have hfinal : lookupAssoc (buildRecordsMap ws ets) tid
        = some (tripleScanWorkouts tid et.name ⟨none, none, none⟩ ws) := by
      unfold buildRecordsMap
      exact lookupAssoc_scanWorkouts ets tid et hf ws _ _ hinit
    unfold slotOf
    rw [hfinal]
    have hk : tripleField k (⟨none, none, none⟩ : RecordTriple) = none := by
      cases k <;> rfl
    show tripleField k
        (tripleScanWorkouts tid et.name ⟨none, none, none⟩ ws)
      = firstMax (recordCandidates ws ets tid k)
    rw [tripleField_scanWorkouts, hk, foldBest_eq_firstMax]
    unfold recordCandidates
    rw [hf]

/-- C5 counterexample: two workouts tie on a 100 kg set for the same
exercise type, dated day 1 (id tw1) and day 2 (id tw2).  The claim says
the retained maxWeight record is the chronologically earliest occurrence
(tw1, day 1); the code retains tw2 (day 2), because the dashboard sorts
most-recent-first before the scan and ties keep the first encountered. -/
theorem claim_C5_counterexample :
    ((calculateDashboardStats [wTieEarlier, wTieLater] [etSwing] 100).1.personalRecords.find?
        (fun r => r.type = RecordType.maxWeight))
      = some { exerciseId := "t1", exerciseName := "Swing",
               type := RecordType.maxWeight, value := 100, date := 2,
               workoutId := "tw2" } ∧
    ({ exerciseId := "t1", exerciseName := "Swing",
       type := RecordType.maxWeight, value := 100, date := 1,
       workoutId := "tw1" } : PersonalRecord)
      ∈ recordCandidates (sortByDateDesc [wTieEarlier, wTieLater]) [etSwing]
          "t1" RecordType.maxWeight ∧
    ("tw2" : String) ≠ "tw1" := by
  refine ⟨?_, ?_, by decide⟩
  · norm_num [calculateDashboardStats, calculatePersonalRecords, buildRecordsMap,
      flattenRecords, applyExercise, applySet, updateBest, mkRecord, lookupAssoc,
      setAssoc, sortByDateDesc, byDateDesc, byValueDesc, List.insertionSort,
      List.orderedInsert, setWeight, setReps, jsOr, candValue, wTieEarlier,
      wTieLater, etSwing, plainSet, List.find?]
    decide
  · norm_num [recordCandidates, sortByDateDesc, byDateDesc, List.insertionSort,
      List.orderedInsert, mkRecord, candValue, setWeight, jsOr, wTieEarlier,
      wTieLater, etSwing, plainSet, List.find?]

/-- C5 amended: for each (exercise type, kind) pair the scan computes the
first maximum — maximum candidate value, ties resolved to the first
candidate in the most-recent-first scan order, i.e. the chronologically
latest tying workout (up to the stable order of equal-dated workouts) —
carrying the date and source workout id of that candidate's workout; the
surfaced list is the value-descending sort of all computed records
truncated to the top 10, so it is sorted, at most 10 long, and every
truncated record's value is at most every surfaced record's value. -/
theorem claim_C5_amended :
    (∀ (ws : List Workout) (ets : List ExerciseType) (tid : String)
        (k : RecordType),
      slotOf (buildRecordsMap (sortByDateDesc ws) ets) tid k
        = firstMax (recordCandidates (sortByDateDesc ws) ets tid k)) ∧
    (∀ (ws : List Workout) (ets : List ExerciseType) (today : ℤ),
      (calculateDashboardStats ws ets today).1.personalRecords
        = (List.insertionSort byValueDesc
            (flattenRecords (buildRecordsMap (sortByDateDesc ws) ets))).take 10) ∧
    (∀ (ws : List Workout) (ets : List ExerciseType) (today : ℤ),
      ((calculateDashboardStats ws ets today).1.personalRecords).length ≤ 10) ∧
    (∀ (ws : List Workout) (ets : List ExerciseType) (today : ℤ),
      ((calculateDashboardStats ws ets today).1.personalRecords).Sorted byValueDesc) ∧
    (∀ (ws : List Workout) (ets : List ExerciseType) (today : ℤ),
      ((List.insertionSort byValueDesc
          (flattenRecords (buildRecordsMap (sortByDateDesc ws) ets))).drop 10).Forall
        (fun r2 =>
          ((calculateDashboardStats ws ets today).1.personalRecords).Forall
            (fun r => r2.value ≤ r.value))) := by
  refine ⟨?_, ?_, ?_, ?_, ?_⟩
  · intro ws ets tid k
    exact slotOf_buildRecordsMap (sortByDateDesc ws) ets tid k
  · intro ws ets today
    rfl
  · intro ws ets today
    show ((List.insertionSort byValueDesc
        (flattenRecords (buildRecordsMap (sortByDateDesc ws) ets))).take 10).length ≤ 10
    rw [List.length_take]
    exact min_le_left _ _
  · intro ws ets today
    have hfull : (List.insertionSort byValueDesc
        (flattenRecords (buildRecordsMap (sortByDateDesc ws) ets))).Sorted byValueDesc :=
      List.sorted_insertionSort byValueDesc _
    exact hfull.sublist (List.take_sublist _ _)
  · intro ws ets today
    have hfull : (List.insertionSort byValueDesc
        (flattenRecords (buildRecordsMap (sortByDateDesc ws) ets))).Pairwise byValueDesc :=
      List.sorted_insertionSort byValueDesc _
    rw [← List.take_append_drop 10
      (List.insertionSort byValueDesc
        (flattenRecords (buildRecordsMap (sortByDateDesc ws) ets)))] at hfull
    have hcross := (List.pairwise_append.mp hfull).2.2
    rw [List.forall_iff_forall_mem]
    intro r2 hr2
    rw [List.forall_iff_forall_mem]
    intro r hr
    exact hcross r hr r2 hr2

end WorkoutTracker
